import Mathlib

/-!
Shallow embedding of the `zaphttp` Go middleware (request logging for HTTP
handlers) and proofs about it.

The embedding covers:
* `statusRecorder` (src/statusrecorder.go): the response-writer observer that
  records the status code and content type.
* `handleRequest` / `logRequest` (src/handler.go): the middleware pipeline
  that builds a per-request logger, merges trace fields, injects the logger
  into the request context, installs the observer, runs the downstream
  handler, and emits the pre-handling and completion log events.
* `FromContext` / `injectLoggerInContext` (src/ctx.go): logger context
  propagation.
* The option defaults (src/handler_options.go).

Modelling conventions:
* zap log levels are the seven `zapcore` levels, ordered by their numeric
  values (-1 for debug up to 5 for fatal); a logger is modelled by its
  minimum enabled level, its name and its accumulated `With` fields.
  `Logger.Check` at the levels the middleware uses (debug..error) succeeds
  exactly when the level is enabled.
* The underlying `http.ResponseWriter` is modelled as a header map plus the
  list of calls forwarded to it (`WEvent`), plus a function giving the
  result of a body write.  The client-visible response is derived from the
  forwarded calls by `clientStatus`/`clientBody`, which encode the net/http
  rule that an unheaded body write implies a 200 status.
* A downstream handler is a list of writer operations (`SROp`) plus a flag
  saying whether it unwinds abnormally (panic / runtime.Goexit) after them.
* Side effects (logger emissions, formatter invocations, filter
  evaluations) are made explicit in the returned `HandlerResult`.
-/

namespace ZapHttp

/-- The seven zapcore log levels, in increasing order of severity. -/
inductive Level where
  | debug
  | info
  | warn
  | error
  | dpanic
  | panicLvl
  | fatal
deriving DecidableEq, Repr

/-- Numeric value of a level, as in zapcore (Debug = -1 .. Fatal = 5). -/
def Level.toInt : Level → Int
  | .debug => -1
  | .info => 0
  | .warn => 1
  | .error => 2
  | .dpanic => 3
  | .panicLvl => 4
  | .fatal => 5

/-- A structured log field (key/value); field contents are opaque to the core. -/
abbrev Field := String × String

/-- Model of a `*zap.Logger`: minimum enabled level (the core's
`LevelEnabler`), accumulated name, and fields accumulated via `With`. -/
structure Logger where
  minLevel : Level
  name : String
  withFields : List Field
deriving DecidableEq, Repr

/-- `zap.Logger.With`: returns a child logger with extra fields appended. -/
def Logger.With (l : Logger) (fs : List Field) : Logger :=
  { l with withFields := l.withFields ++ fs }

/-- `zap.Logger.Named`: appends a name segment, dot-separated, no-op on "". -/
def Logger.Named (l : Logger) (s : String) : Logger :=
  if s = "" then l
  else { l with name := if l.name = "" then s else l.name ++ "." ++ s }

/-- Whether the logger's core enables the given level (`Check` returns a
non-nil entry at the levels the middleware uses exactly in this case). -/
def Logger.enabled (l : Logger) (lvl : Level) : Bool :=
  l.minLevel.toInt ≤ lvl.toInt

/-- An OpenTelemetry span context: trace id, span id (0 = absent), sampled flag. -/
structure SpanContext where
  traceID : Nat
  spanID : Nat
  sampled : Bool
deriving DecidableEq, Repr

/-- `trace.SpanContext.IsValid`: both the trace id and the span id are non-zero. -/
def SpanContext.IsValid (sc : SpanContext) : Bool :=
  sc.traceID ≠ 0 && sc.spanID ≠ 0

/-- A value stored in a Go context: either a `*zap.Logger` or something else
(the type assertion in `FromContext` fails on the latter). -/
inductive ContextVal where
  | loggerVal (l : Logger)
  | otherVal (s : String)
deriving DecidableEq, Repr

/-- A Go context, modelled as its chain of `WithValue` associations, most
recent first. -/
abbrev Context := List (String × ContextVal)

/-- `context.WithValue`: layer one more association on the chain. -/
def contextWithValue (ctx : Context) (k : String) (v : ContextVal) : Context :=
  (k, v) :: ctx

/-- `ctx.Value(k)`: most recent association for `k`, if any. -/
def contextValue (ctx : Context) (k : String) : Option ContextVal :=
  (ctx.find? (fun p => p.1 = k)).map (fun p => p.2)

/-- The context key under which the middleware stores the logger
(`loggerContextKey` in src/ctx.go). -/
def loggerContextKey : String := "logger"

/-- The Go type assertion `v.(*zap.Logger)`: succeeds only on a logger value. -/
def asLogger : Option ContextVal → Option Logger
  | some (.loggerVal l) => some l
  | _ => none

/-- `injectLoggerInContext` (src/ctx.go): stores the logger in the context. -/
def injectLoggerInContext (ctx : Context) (l : Logger) : Context :=
  contextWithValue ctx loggerContextKey (.loggerVal l)

/-- The debug diagnostic message emitted by `FromContext` on a miss. -/
def fromContextDiag : String :=
  "FromContext is used outside of a HTTP request context. Make sure the HTTP handler is wrapped in a logging handler."

/-- `FromContext` (src/ctx.go): returns the logger stored in the context; on
a miss, returns the global logger `glob` and emits one debug diagnostic
(the second component lists the `Debug` calls made). -/
def FromContext (glob : Logger) (ctx : Context) : Logger × List (Level × String) :=
  match asLogger (contextValue ctx loggerContextKey) with
  | some l => (l, [])
  | none => (glob, [(Level.debug, fromContextDiag)])

/-- An HTTP header map (association list; `Set` replaces, `Get` reads the
first value or ""). -/
abbrev HeaderMap := List (String × String)

/-- `http.Header.Get`: first value stored for the key, or "". -/
def headerGet (h : HeaderMap) (key : String) : String :=
  match h.find? (fun p => p.1 = key) with
  | some p => p.2
  | none => ""

/-- `http.Header.Set`: replaces the value stored for the key. -/
def headerSet (h : HeaderMap) (key val : String) : HeaderMap :=
  (key, val) :: h.filter (fun p => p.1 ≠ key)

/-- A call forwarded to the underlying `http.ResponseWriter`. -/
inductive WEvent where
  | header (code : Int)
  | body (data : String)
deriving DecidableEq, Repr

/-- The underlying `http.ResponseWriter`: its header map, the calls
forwarded to it so far, and the (count, error) result it returns for a body
write of given data. -/
structure Underlying where
  headerMap : HeaderMap
  events : List WEvent
  writeResult : String → Nat × Option String

/-- Forwarding `WriteHeader` to the underlying writer. -/
def Underlying.WriteHeader (u : Underlying) (code : Int) : Underlying :=
  { u with events := u.events ++ [WEvent.header code] }

/-- Forwarding `Write` to the underlying writer; returns its (count, error). -/
def Underlying.Write (u : Underlying) (data : String) :
    Underlying × (Nat × Option String) :=
  ({ u with events := u.events ++ [WEvent.body data] }, u.writeResult data)

/-- `statusRecorder` (src/statusrecorder.go): wraps the underlying writer and
records the status code and content type. -/
structure statusRecorder where
  writer : Underlying
  writeHeaderCalled : Bool
  StatusCode : Int
  ContentType : String

/-- `&statusRecorder{writer: w}`: the fresh recorder around a writer (Go zero
values for the other fields). -/
def newStatusRecorder (u : Underlying) : statusRecorder :=
  { writer := u, writeHeaderCalled := false, StatusCode := 0, ContentType := "" }

/-- `statusRecorder.Header`: returns the underlying writer's header map. -/
def statusRecorder.Header (s : statusRecorder) : HeaderMap :=
  s.writer.headerMap

/-- `statusRecorder.WriteHeader`: marks the header sent, records the status
code and the current Content-Type header value, and forwards the call. -/
def statusRecorder.WriteHeader (s : statusRecorder) (statusCode : Int) : statusRecorder :=
  { s with
    writeHeaderCalled := true
    StatusCode := statusCode
    ContentType := headerGet s.writer.headerMap "Content-Type"
    writer := s.writer.WriteHeader statusCode }

/-- `statusRecorder.Write`: replicates net/http behaviour by synthesizing
`WriteHeader 200` when no header was sent yet, then forwards the write and
returns the underlying writer's result. -/
def statusRecorder.Write (s : statusRecorder) (data : String) :
    statusRecorder × (Nat × Option String) :=
  let s1 := if s.writeHeaderCalled then s else s.WriteHeader 200
  let r := s1.writer.Write data
  ({ s1 with writer := r.1 }, r.2)

/-- `statusRecorder.Unwrap`: exposes the original underlying writer. -/
def statusRecorder.Unwrap (s : statusRecorder) : Underlying :=
  s.writer

/-- One operation a downstream handler can perform on its response writer. -/
inductive SROp where
  | setHeader (key val : String)
  | write (data : String)
  | writeHeader (code : Int)
deriving DecidableEq, Repr

/-- Applying one handler operation to the wrapped (observed) writer. -/
def applyOp (s : statusRecorder) : SROp → statusRecorder
  | .setHeader k v =>
      { s with writer := { s.writer with headerMap := headerSet s.writer.headerMap k v } }
  | .write d => (s.Write d).1
  | .writeHeader c => s.WriteHeader c

/-- Running a handler's operations against the wrapped writer. -/
def runOps (s : statusRecorder) (ops : List SROp) : statusRecorder :=
  ops.foldl applyOp s

/-- Applying one handler operation directly to the bare underlying writer. -/
def applyOpBare (u : Underlying) : SROp → Underlying
  | .setHeader k v => { u with headerMap := headerSet u.headerMap k v }
  | .write d => (u.Write d).1
  | .writeHeader c => u.WriteHeader c

/-- Running a handler's operations against the bare underlying writer. -/
def runOpsBare (u : Underlying) (ops : List SROp) : Underlying :=
  ops.foldl applyOpBare u

/-- The status the client sees from a stream of forwarded calls, under the
net/http rule that a body write before any header send implies status 200
(and that the first header send wins). -/
def clientStatus : List WEvent → Option Int
  | [] => none
  | WEvent.header c :: _ => some c
  | WEvent.body _ :: _ => some 200

/-- The body the client sees: concatenation of the forwarded body writes. -/
def clientBody : List WEvent → String
  | [] => ""
  | WEvent.header _ :: rest => clientBody rest
  | WEvent.body d :: rest => d ++ clientBody rest

/-- An incoming `*http.Request`: its context, the span context carried by
that context (read by `trace.SpanContextFromContext`), and an opaque tag
standing for the rest of the request data (method, URL, headers, ...). -/
structure Request where
  ctx : Context
  spanCtx : SpanContext
  tag : String

/-- `ResponseInfo` (src/response_info definitions): the outcome metadata
handed to the request formatter. -/
structure ResponseInfo where
  StatusCode : Int
  ContentType : String
  Start : Nat
  Latency : Nat
deriving DecidableEq, Repr

/-- `handlerOptions` (src/handler_options.go): the immutable configuration
aggregate; formatter interfaces are modelled by their methods as functions. -/
structure handlerOptions where
  logger : Logger
  perRequestLoggerFn : Logger → Request → Logger
  perRequestFilterFn : Request → Level → Bool
  traceFormatter : Request → SpanContext → List Field
  requestFormatter : Request → ResponseInfo → List Field

/-- `DefaultPerRequestLoggerFunc`: names the parent logger "request". -/
def DefaultPerRequestLoggerFunc (parent : Logger) (_ : Request) : Logger :=
  parent.Named "request"

/-- `DefaultPerRequestFilterFunc`: always log. -/
def DefaultPerRequestFilterFunc (_ : Request) (_ : Level) : Bool :=
  true

/-- A log line emitted by the middleware. -/
structure LogEvent where
  level : Level
  msg : String
  loggerName : String
  fields : List Field

/-- A downstream handler: the writer operations it performs, and whether it
then unwinds abnormally (panic or runtime.Goexit) instead of returning. -/
structure NextHandler where
  ops : List SROp
  panics : Bool

/-- `handler.logRequest` (src/handler.go): consult the per-request filter,
then `l.Check(level, msg)`; only when both pass, invoke the request
formatter and write the entry.  Returns the emitted event (if any) and the
number of request-formatter invocations made. -/
def logRequest (opts : handlerOptions) (l : Logger) (level : Level) (msg : String)
    (req : Request) (res : ResponseInfo) : Option LogEvent × Nat :=
  if opts.perRequestFilterFn req level then
    if l.enabled level then
      (some { level := level, msg := msg, loggerName := l.name
              fields := l.withFields ++ opts.requestFormatter req res }, 1)
    else (none, 0)
  else (none, 0)

/-- The observable outcome of one `handleRequest` run: the log lines emitted,
the `logRequest` invocations made (each evaluates the filter once, with that
event's level and message), the final observer state, whether the abnormal
unwind propagated to the caller, the logger injected into the context, the
resulting request context, and the formatter invocation counts. -/
structure HandlerResult where
  logs : List LogEvent
  attempts : List (Level × String)
  recorder : statusRecorder
  panicked : Bool
  injected : Logger
  ctx : Context
  requestFormatterCalls : Nat
  traceFormatterCalls : Nat

/-- The per-request logger built at the top of `handleRequest`: the
configured constructor applied to the base logger, plus the trace fields
when the request's span context is valid (src/handler.go lines 33-41). -/
def perReqLogger (opts : handlerOptions) (req : Request) : Logger :=
  let l0 := opts.perRequestLoggerFn opts.logger req
  if req.spanCtx.IsValid then l0.With (opts.traceFormatter req req.spanCtx) else l0

/-- The normal-completion branch of `handleRequest` (src/handler.go lines
76-90): severity and message chosen from the recorded status code. -/
def completionCase (st : Int) : Level × String :=
  if st ≤ 399 then (Level.info, "HTTP request finished")
  else if st ≤ 499 then (Level.warn, "HTTP request failed due to a client error")
  else (Level.error, "HTTP request failed")

/-- `handler.handleRequest` (src/handler.go): builds the per-request logger,
merges trace fields when the span context is valid, injects the logger into
the request context, installs the `statusRecorder`, emits the pre-handling
debug log, runs the downstream handler, and — via the deferred completion
guard when the handler unwinds abnormally, or the normal path otherwise —
emits exactly one completion log.  `start` is the captured start time and
`latency` the elapsed time observed at completion. -/
def handleRequest (opts : handlerOptions) (u : Underlying) (req : Request)
    (next : NextHandler) (start latency : Nat) : HandlerResult :=
  let l := perReqLogger opts req
  let ctx2 := injectLoggerInContext req.ctx l
  let req2 : Request := { req with ctx := ctx2 }
  let sr0 := newStatusRecorder u
  let pre := logRequest opts l .debug "Received HTTP request" req2
    { StatusCode := 0, ContentType := "", Start := start, Latency := 0 }
  let sr1 := runOps sr0 next.ops
  let res : ResponseInfo :=
    { StatusCode := sr1.StatusCode, ContentType := sr1.ContentType
      Start := start, Latency := latency }
  if next.panics then
    -- The deferred guard observes `completed = false` and logs the panic;
    -- the panic is not recovered and keeps unwinding.
    let pl := logRequest opts l .error "HTTP request panicked" req2 res
    { logs := pre.1.toList ++ pl.1.toList
      attempts := [(.debug, "Received HTTP request"), (.error, "HTTP request panicked")]
      recorder := sr1
      panicked := true
      injected := l
      ctx := ctx2
      requestFormatterCalls := pre.2 + pl.2
      traceFormatterCalls := if req.spanCtx.IsValid then 1 else 0 }
  else
    -- `completed = true`: the guard does nothing and the normal path logs.
    let lm := completionCase sr1.StatusCode
    let fin := logRequest opts l lm.1 lm.2 req2 res
    { logs := pre.1.toList ++ fin.1.toList
      attempts := [(.debug, "Received HTTP request"), lm]
      recorder := sr1
      panicked := false
      injected := l
      ctx := ctx2
      requestFormatterCalls := pre.2 + fin.2
      traceFormatterCalls := if req.spanCtx.IsValid then 1 else 0 }

/-- Whether a message is one of the four completion messages. -/
def isCompletionMsg (m : String) : Bool :=
  m = "HTTP request finished" ||
  m = "HTTP request failed due to a client error" ||
  m = "HTTP request failed" ||
  m = "HTTP request panicked"

/-- The completion log lines among the emitted lines. -/
def completionEvents (logs : List LogEvent) : List LogEvent :=
  logs.filter (fun e => isCompletionMsg e.msg)

/-!  Concrete fixtures used to evaluate the model on explicit inputs. -/

/-- A write result function like httptest.ResponseRecorder's: full count, no error. -/
def testWriteResult (d : String) : Nat × Option String := (d.length, none)

/-- A fresh underlying writer with an empty header map. -/
def testU : Underlying :=
  { headerMap := [], events := [], writeResult := testWriteResult }

/-- A debug-enabled base logger. -/
def testLogger : Logger := { minLevel := .debug, name := "", withFields := [] }

/-- A valid, sampled span context. -/
def testSpanValid : SpanContext := { traceID := 7, spanID := 3, sampled := true }

/-- An invalid (zero) span context. -/
def testSpanInvalid : SpanContext := { traceID := 0, spanID := 0, sampled := false }

/-- A request with no trace context. -/
def testReq : Request := { ctx := [], spanCtx := testSpanInvalid, tag := "GET /" }

/-- A request carrying a valid trace context. -/
def testReqTraced : Request := { ctx := [], spanCtx := testSpanValid, tag := "GET /" }

/-- A concrete request formatter: one field from the response status. -/
def testRequestFields (_ : Request) (res : ResponseInfo) : List Field :=
  [("status", toString res.StatusCode)]

/-- A concrete trace formatter: one field from the trace id. -/
def testTraceFields (_ : Request) (sc : SpanContext) : List Field :=
  [("trace", toString sc.traceID)]

/-- Concrete middleware options with the documented defaults for the
per-request logger constructor and the filter. -/
def testOptions : handlerOptions :=
  { logger := testLogger
    perRequestLoggerFn := DefaultPerRequestLoggerFunc
    perRequestFilterFn := DefaultPerRequestFilterFunc
    traceFormatter := testTraceFields
    requestFormatter := testRequestFields }

/-!  Lemmas about the observer. -/

theorem runOps_nil (s : statusRecorder) : runOps s [] = s := rfl

theorem runOps_cons (s : statusRecorder) (op : SROp) (rest : List SROp) :
    runOps s (op :: rest) = runOps (applyOp s op) rest := rfl

/-- Header-only mutations leave everything but the header map unchanged. -/
theorem runOps_setHeader_only (pre : List SROp) (s : statusRecorder)
    (h : ∀ op ∈ pre, ∃ k v, op = SROp.setHeader k v) :
    (runOps s pre).writeHeaderCalled = s.writeHeaderCalled ∧
    (runOps s pre).StatusCode = s.StatusCode ∧
    (runOps s pre).ContentType = s.ContentType ∧
    (runOps s pre).writer.events = s.writer.events ∧
    (runOps s pre).writer.writeResult = s.writer.writeResult := by
  induction pre generalizing s with
  | nil => simp [runOps]
  | cons op rest ih =>
    obtain ⟨k, v, rfl⟩ := h _ (List.mem_cons_self _ _)
    have h' : ∀ op ∈ rest, ∃ k v, op = SROp.setHeader k v :=
      fun o ho => h o (List.mem_cons_of_mem _ ho)
    simpa [runOps_cons, applyOp] using ih (applyOp s (SROp.setHeader k v)) h'

/-- C5: if the downstream handler writes a body before any explicit
header-send (only header mutations may precede the write), the observer
synthesizes exactly one implicit 200 header-send before forwarding that
write: the recorded status code is 200, the recorded content type is the
Content-Type header value at the moment of that first write, and the calls
forwarded to the underlying writer are exactly the synthesized 200
header-send followed by the body write. -/
theorem C5_write_synthesizes_200 (hm : HeaderMap) (wr : String → Nat × Option String)
    (pre : List SROp) (d : String)
    (hpre : ∀ op ∈ pre, ∃ k v, op = SROp.setHeader k v) :
    ((runOps (newStatusRecorder { headerMap := hm, events := [], writeResult := wr }) pre).Write d).1.StatusCode = 200 ∧
    ((runOps (newStatusRecorder { headerMap := hm, events := [], writeResult := wr }) pre).Write d).1.ContentType =
      headerGet (runOps (newStatusRecorder { headerMap := hm, events := [], writeResult := wr }) pre).writer.headerMap "Content-Type" ∧
    ((runOps (newStatusRecorder { headerMap := hm, events := [], writeResult := wr }) pre).Write d).1.writer.events =
      [WEvent.header 200, WEvent.body d] ∧
    ((runOps (newStatusRecorder { headerMap := hm, events := [], writeResult := wr }) pre).Write d).1.writeHeaderCalled = true := by
  obtain ⟨h1, _, _, h4, _⟩ :=
    runOps_setHeader_only pre (newStatusRecorder { headerMap := hm, events := [], writeResult := wr }) hpre
  have h1' : (runOps (newStatusRecorder { headerMap := hm, events := [], writeResult := wr }) pre).writeHeaderCalled = false := h1
  have h4' : (runOps (newStatusRecorder { headerMap := hm, events := [], writeResult := wr }) pre).writer.events = [] := h4
  simp [statusRecorder.Write, statusRecorder.WriteHeader, Underlying.Write,
    Underlying.WriteHeader, h1', h4']

/-- Witness for C5 at a concrete input: set Content-Type, then write a body
with no explicit header-send. -/
theorem C5_write_synthesizes_200_witness :
    ((runOps (newStatusRecorder testU) [SROp.setHeader "Content-Type" "application/json"]).Write "hello").1.StatusCode = 200 ∧
    ((runOps (newStatusRecorder testU) [SROp.setHeader "Content-Type" "application/json"]).Write "hello").1.ContentType = "application/json" ∧
    ((runOps (newStatusRecorder testU) [SROp.setHeader "Content-Type" "application/json"]).Write "hello").1.writer.events =
      [WEvent.header 200, WEvent.body "hello"] := by
  have h := C5_write_synthesizes_200 [] testWriteResult
    [SROp.setHeader "Content-Type" "application/json"] "hello"
    (by
      intro op hop
      rw [List.mem_singleton] at hop
      exact ⟨"Content-Type", "application/json", hop⟩)
  exact ⟨h.1, h.2.1.trans (by decide), h.2.2.1⟩

/-- Counterexample to C4 as stated: after a first header-send with 200 and
an empty header map (recording status 200, content type ""), mutating
Content-Type and sending headers again with 500 changes the recorded values
to 500 and "text/html" — they do not stay fixed. -/
theorem C4_counterexample :
    (runOps (newStatusRecorder testU)
      [SROp.writeHeader 200, SROp.setHeader "Content-Type" "text/html",
        SROp.writeHeader 500]).StatusCode = 500 ∧
    (runOps (newStatusRecorder testU)
      [SROp.writeHeader 200, SROp.setHeader "Content-Type" "text/html",
        SROp.writeHeader 500]).ContentType = "text/html" ∧
    ¬ ((runOps (newStatusRecorder testU)
      [SROp.writeHeader 200, SROp.setHeader "Content-Type" "text/html",
        SROp.writeHeader 500]).StatusCode = 200 ∧
      (runOps (newStatusRecorder testU)
      [SROp.writeHeader 200, SROp.setHeader "Content-Type" "text/html",
        SROp.writeHeader 500]).ContentType = "") := by
  refine ⟨rfl, rfl, ?_⟩
  intro h
  exact absurd h.1 (by decide)

/-- C4 amended: a second or later header-send is forwarded to the underlying
writer and IS re-recorded — each call overwrites the recorded status code
with its argument and the recorded content type with the Content-Type
header value at that moment (last call wins); the header map itself is not
touched. -/
theorem C4_rerecords_on_later_writeHeader (s : statusRecorder) (c : Int)
    (_h : s.writeHeaderCalled = true) :
    (s.WriteHeader c).StatusCode = c ∧
    (s.WriteHeader c).ContentType = headerGet s.writer.headerMap "Content-Type" ∧
    (s.WriteHeader c).writer.events = s.writer.events ++ [WEvent.header c] ∧
    (s.WriteHeader c).writer.headerMap = s.writer.headerMap := by
  simp [statusRecorder.WriteHeader, Underlying.WriteHeader]

/-- Witness for the amended C4 at a concrete input. -/
theorem C4_rerecords_on_later_writeHeader_witness :
    ((runOps (newStatusRecorder testU)
      [SROp.writeHeader 200, SROp.setHeader "Content-Type" "text/html"]).WriteHeader 500).StatusCode = 500 ∧
    ((runOps (newStatusRecorder testU)
      [SROp.writeHeader 200, SROp.setHeader "Content-Type" "text/html"]).WriteHeader 500).ContentType = "text/html" := by
  have h := C4_rerecords_on_later_writeHeader
    (runOps (newStatusRecorder testU)
      [SROp.writeHeader 200, SROp.setHeader "Content-Type" "text/html"]) 500 rfl
  exact ⟨h.1, h.2.1.trans (by decide)⟩

/-!  Observational transparency of the observer (C9): a simulation between
running the handler against the wrapped writer and against the bare writer. -/

/-- Simulation invariant between the wrapped state `W` and the bare state
`B`: same header map, same write-result behaviour, and the forwarded call
streams are either identical or differ by exactly the synthesized 200
header-send right before the first body write. -/
def SimInv (W : statusRecorder) (B : Underlying) : Prop :=
  W.writer.headerMap = B.headerMap ∧
  W.writer.writeResult = B.writeResult ∧
  (W.writer.events = B.events ∨
    (W.writeHeaderCalled = true ∧
      ∃ E d X, W.writer.events = E ++ WEvent.header 200 :: WEvent.body d :: X ∧
        B.events = E ++ WEvent.body d :: X))

theorem simInv_step (W : statusRecorder) (B : Underlying) (op : SROp)
    (h : SimInv W B) : SimInv (applyOp W op) (applyOpBare B op) := by
  obtain ⟨hmap, hwr, hev⟩ := h
  cases op with
  | setHeader k v =>
    refine ⟨by simp [applyOp, applyOpBare, hmap], by simp [applyOp, applyOpBare, hwr], ?_⟩
    rcases hev with hev | ⟨hflag, E, d, X, hW, hB⟩
    · exact Or.inl (by simp [applyOp, applyOpBare, hev])
    · exact Or.inr ⟨by simp [applyOp, hflag], E, d, X, by simp [applyOp, hW], by simp [applyOpBare, hB]⟩
  | writeHeader c =>
    refine ⟨by simp [applyOp, applyOpBare, statusRecorder.WriteHeader, Underlying.WriteHeader, hmap],
      by simp [applyOp, applyOpBare, statusRecorder.WriteHeader, Underlying.WriteHeader, hwr], ?_⟩
    rcases hev with hev | ⟨hflag, E, d, X, hW, hB⟩
    · exact Or.inl (by
        simp [applyOp, applyOpBare, statusRecorder.WriteHeader, Underlying.WriteHeader, hev])
    · refine Or.inr ⟨by simp [applyOp, statusRecorder.WriteHeader], E, d, X ++ [WEvent.header c], ?_, ?_⟩
      · simp [applyOp, statusRecorder.WriteHeader, Underlying.WriteHeader, hW]
      · simp [applyOpBare, Underlying.WriteHeader, hB]
  | write d0 =>
    rcases hev with hev | ⟨hflag, E, d, X, hW, hB⟩
    · by_cases hc : W.writeHeaderCalled = true
      · refine ⟨by simp [applyOp, applyOpBare, statusRecorder.Write, Underlying.Write, hc, hmap],
          by simp [applyOp, applyOpBare, statusRecorder.Write, Underlying.Write, hc, hwr], Or.inl ?_⟩
        simp [applyOp, applyOpBare, statusRecorder.Write, Underlying.Write, hc, hev]
      · have hc' : W.writeHeaderCalled = false := by
          cases hcc : W.writeHeaderCalled
          · rfl
          · exact absurd hcc hc
        refine ⟨by simp [applyOp, applyOpBare, statusRecorder.Write, statusRecorder.WriteHeader,
            Underlying.Write, Underlying.WriteHeader, hc', hmap],
          by simp [applyOp, applyOpBare, statusRecorder.Write, statusRecorder.WriteHeader,
            Underlying.Write, Underlying.WriteHeader, hc', hwr],
          Or.inr ⟨by simp [applyOp, statusRecorder.Write, statusRecorder.WriteHeader,
            Underlying.Write, hc'], W.writer.events, d0, [], ?_, ?_⟩⟩
        · simp [applyOp, statusRecorder.Write, statusRecorder.WriteHeader,
            Underlying.Write, Underlying.WriteHeader, hc']
        · simp [applyOpBare, Underlying.Write, hev]
    · refine ⟨by simp [applyOp, applyOpBare, statusRecorder.Write, Underlying.Write, hflag, hmap],
        by simp [applyOp, applyOpBare, statusRecorder.Write, Underlying.Write, hflag, hwr],
        Or.inr ⟨by simp [applyOp, statusRecorder.Write, hflag], E, d, X ++ [WEvent.body d0], ?_, ?_⟩⟩
      · simp [applyOp, statusRecorder.Write, Underlying.Write, hflag, hW]
      · simp [applyOpBare, Underlying.Write, hB]

theorem simInv_runOps (ops : List SROp) (W : statusRecorder) (B : Underlying)
    (h : SimInv W B) : SimInv (runOps W ops) (runOpsBare B ops) := by
  induction ops generalizing W B with
  | nil => exact h
  | cons op rest ih => exact ih (applyOp W op) (applyOpBare B op) (simInv_step W B op h)

theorem clientStatus_insert (E X : List WEvent) (d : String) :
    clientStatus (E ++ WEvent.header 200 :: WEvent.body d :: X) =
    clientStatus (E ++ WEvent.body d :: X) := by
  cases E with
  | nil => rfl
  | cons e E' => cases e <;> rfl

theorem clientBody_append (xs ys : List WEvent) :
    clientBody (xs ++ ys) = clientBody xs ++ clientBody ys := by
  induction xs with
  | nil => simp [clientBody]
  | cons x xs ih => cases x <;> simp [clientBody, ih, String.append_assoc]

theorem clientBody_insert (E X : List WEvent) (d : String) :
    clientBody (E ++ WEvent.header 200 :: WEvent.body d :: X) =
    clientBody (E ++ WEvent.body d :: X) := by
  simp [clientBody_append, clientBody]

/-- C9: the observer is observationally transparent — header access returns
exactly the underlying writer's header map, a body write forwards the data
and returns the underlying writer's (count, error) result unchanged, every
header-send is forwarded with the same status code, `Unwrap` returns
exactly the underlying writer, and a handler run against the wrapped writer
yields the same client-visible response (status, body, final headers) as
against the bare writer. -/
theorem C9_observer_transparent (s : statusRecorder) (d : String) (c : Int)
    (hm : HeaderMap) (wr : String → Nat × Option String) (ops : List SROp) :
    statusRecorder.Header s = s.writer.headerMap ∧
    (s.Write d).2 = s.writer.writeResult d ∧
    (s.WriteHeader c).writer.events = s.writer.events ++ [WEvent.header c] ∧
    s.Unwrap = s.writer ∧
    clientStatus (runOps (newStatusRecorder { headerMap := hm, events := [], writeResult := wr }) ops).writer.events =
      clientStatus (runOpsBare { headerMap := hm, events := [], writeResult := wr } ops).events ∧
    clientBody (runOps (newStatusRecorder { headerMap := hm, events := [], writeResult := wr }) ops).writer.events =
      clientBody (runOpsBare { headerMap := hm, events := [], writeResult := wr } ops).events ∧
    (runOps (newStatusRecorder { headerMap := hm, events := [], writeResult := wr }) ops).writer.headerMap =
      (runOpsBare { headerMap := hm, events := [], writeResult := wr } ops).headerMap := by
  have hsim := simInv_runOps ops
    (newStatusRecorder { headerMap := hm, events := [], writeResult := wr })
    { headerMap := hm, events := [], writeResult := wr }
    ⟨rfl, rfl, Or.inl rfl⟩
  obtain ⟨hmap, _, hev⟩ := hsim
  refine ⟨rfl, ?_, by simp [statusRecorder.WriteHeader, Underlying.WriteHeader], rfl, ?_, ?_, hmap⟩
  · by_cases hc : s.writeHeaderCalled = true
    · simp [statusRecorder.Write, Underlying.Write, hc]
    · have hc' : s.writeHeaderCalled = false := by
        cases hcc : s.writeHeaderCalled
        · rfl
        · exact absurd hcc hc
      simp [statusRecorder.Write, statusRecorder.WriteHeader, Underlying.Write,
        Underlying.WriteHeader, hc']
  · rcases hev with hev | ⟨_, E, d1, X, hW, hB⟩
    · rw [hev]
    · rw [hW, hB, clientStatus_insert]
  · rcases hev with hev | ⟨_, E, d1, X, hW, hB⟩
    · rw [hev]
    · rw [hW, hB, clientBody_insert]

/-!  Lemmas about the interceptor pipeline. -/

/-- The request as seen downstream: same request, context now carrying the
per-request logger. -/
def reqWithCtx (opts : handlerOptions) (req : Request) : Request :=
  { req with ctx := injectLoggerInContext req.ctx (perReqLogger opts req) }

/-- The `ResponseInfo` of the pre-handling event (only the start time). -/
def preInfo (start : Nat) : ResponseInfo :=
  { StatusCode := 0, ContentType := "", Start := start, Latency := 0 }

/-- The `ResponseInfo` of the completion event. -/
def finInfo (u : Underlying) (next : NextHandler) (start latency : Nat) : ResponseInfo :=
  { StatusCode := (runOps (newStatusRecorder u) next.ops).StatusCode
    ContentType := (runOps (newStatusRecorder u) next.ops).ContentType
    Start := start, Latency := latency }

theorem perReqLogger_minLevel (opts : handlerOptions) (req : Request) :
    (perReqLogger opts req).minLevel = (opts.perRequestLoggerFn opts.logger req).minLevel := by
  by_cases h : req.spanCtx.IsValid = true <;> simp [perReqLogger, Logger.With, h]

theorem perReqLogger_withFields_valid (opts : handlerOptions) (req : Request)
    (h : req.spanCtx.IsValid = true) :
    (perReqLogger opts req).withFields =
      (opts.perRequestLoggerFn opts.logger req).withFields ++
        opts.traceFormatter req req.spanCtx := by
  simp [perReqLogger, Logger.With, h]

theorem perReqLogger_withFields_invalid (opts : handlerOptions) (req : Request)
    (h : req.spanCtx.IsValid = false) :
    (perReqLogger opts req).withFields =
      (opts.perRequestLoggerFn opts.logger req).withFields := by
  simp [perReqLogger, Logger.With, h]

theorem logRequest_some (opts : handlerOptions) (l : Logger) (lvl : Level)
    (msg : String) (req : Request) (res : ResponseInfo)
    (hf : opts.perRequestFilterFn req lvl = true) (he : l.enabled lvl = true) :
    logRequest opts l lvl msg req res =
      (some { level := lvl, msg := msg, loggerName := l.name
              fields := l.withFields ++ opts.requestFormatter req res }, 1) := by
  simp [logRequest, hf, he]

theorem logRequest_events (opts : handlerOptions) (l : Logger) (lvl : Level)
    (msg : String) (req : Request) (res : ResponseInfo) :
    ∀ e ∈ (logRequest opts l lvl msg req res).1.toList,
      e.level = lvl ∧ e.msg = msg ∧
      e.fields = l.withFields ++ opts.requestFormatter req res := by
  unfold logRequest
  split_ifs <;> simp

theorem logRequest_mem_filter (opts : handlerOptions) (l : Logger) (lvl : Level)
    (msg : String) (req : Request) (res : ResponseInfo) :
    ∀ e ∈ (logRequest opts l lvl msg req res).1.toList,
      opts.perRequestFilterFn req e.level = true := by
  unfold logRequest
  split_ifs with h1 h2 <;> simp [h1]

theorem logRequest_calls_eq_len (opts : handlerOptions) (l : Logger) (lvl : Level)
    (msg : String) (req : Request) (res : ResponseInfo) :
    (logRequest opts l lvl msg req res).2 =
      (logRequest opts l lvl msg req res).1.toList.length := by
  unfold logRequest
  split_ifs <;> simp

theorem handleRequest_recorder (opts : handlerOptions) (u : Underlying)
    (req : Request) (next : NextHandler) (start latency : Nat) :
    (handleRequest opts u req next start latency).recorder =
      runOps (newStatusRecorder u) next.ops := by
  cases next with
  | mk ops p => cases p <;> rfl

theorem handleRequest_panicked (opts : handlerOptions) (u : Underlying)
    (req : Request) (next : NextHandler) (start latency : Nat) :
    (handleRequest opts u req next start latency).panicked = next.panics := by
  cases next with
  | mk ops p => cases p <;> rfl

theorem handleRequest_injected (opts : handlerOptions) (u : Underlying)
    (req : Request) (next : NextHandler) (start latency : Nat) :
    (handleRequest opts u req next start latency).injected = perReqLogger opts req := by
  cases next with
  | mk ops p => cases p <;> rfl

theorem handleRequest_ctx (opts : handlerOptions) (u : Underlying)
    (req : Request) (next : NextHandler) (start latency : Nat) :
    (handleRequest opts u req next start latency).ctx =
      injectLoggerInContext req.ctx (perReqLogger opts req) := by
  cases next with
  | mk ops p => cases p <;> rfl

theorem handleRequest_traceCalls (opts : handlerOptions) (u : Underlying)
    (req : Request) (next : NextHandler) (start latency : Nat) :
    (handleRequest opts u req next start latency).traceFormatterCalls =
      (if req.spanCtx.IsValid then 1 else 0) := by
  cases next with
  | mk ops p => cases p <;> rfl

theorem handleRequest_attempts (opts : handlerOptions) (u : Underlying)
    (req : Request) (next : NextHandler) (start latency : Nat) :
    (handleRequest opts u req next start latency).attempts =
      [(Level.debug, "Received HTTP request"),
        if next.panics then (Level.error, "HTTP request panicked")
        else completionCase (runOps (newStatusRecorder u) next.ops).StatusCode] := by
  cases next with
  | mk ops p => cases p <;> rfl

theorem handleRequest_logs_normal (opts : handlerOptions) (u : Underlying)
    (req : Request) (next : NextHandler) (start latency : Nat)
    (hp : next.panics = false) :
    (handleRequest opts u req next start latency).logs =
      (logRequest opts (perReqLogger opts req) .debug "Received HTTP request"
        (reqWithCtx opts req) (preInfo start)).1.toList ++
      (logRequest opts (perReqLogger opts req)
        (completionCase (runOps (newStatusRecorder u) next.ops).StatusCode).1
        (completionCase (runOps (newStatusRecorder u) next.ops).StatusCode).2
        (reqWithCtx opts req) (finInfo u next start latency)).1.toList := by
  cases next with
  | mk ops p =>
    cases p
    · rfl
    · exact Bool.noConfusion hp

theorem handleRequest_logs_panic (opts : handlerOptions) (u : Underlying)
    (req : Request) (next : NextHandler) (start latency : Nat)
    (hp : next.panics = true) :
    (handleRequest opts u req next start latency).logs =
      (logRequest opts (perReqLogger opts req) .debug "Received HTTP request"
        (reqWithCtx opts req) (preInfo start)).1.toList ++
      (logRequest opts (perReqLogger opts req) .error "HTTP request panicked"
        (reqWithCtx opts req) (finInfo u next start latency)).1.toList := by
  cases next with
  | mk ops p =>
    cases p
    · exact Bool.noConfusion hp
    · rfl

theorem handleRequest_fmtCalls_normal (opts : handlerOptions) (u : Underlying)
    (req : Request) (next : NextHandler) (start latency : Nat)
    (hp : next.panics = false) :
    (handleRequest opts u req next start latency).requestFormatterCalls =
      (logRequest opts (perReqLogger opts req) .debug "Received HTTP request"
        (reqWithCtx opts req) (preInfo start)).2 +
      (logRequest opts (perReqLogger opts req)
        (completionCase (runOps (newStatusRecorder u) next.ops).StatusCode).1
        (completionCase (runOps (newStatusRecorder u) next.ops).StatusCode).2
        (reqWithCtx opts req) (finInfo u next start latency)).2 := by
  cases next with
  | mk ops p =>
    cases p
    · rfl
    · exact Bool.noConfusion hp

theorem handleRequest_fmtCalls_panic (opts : handlerOptions) (u : Underlying)
    (req : Request) (next : NextHandler) (start latency : Nat)
    (hp : next.panics = true) :
    (handleRequest opts u req next start latency).requestFormatterCalls =
      (logRequest opts (perReqLogger opts req) .debug "Received HTTP request"
        (reqWithCtx opts req) (preInfo start)).2 +
      (logRequest opts (perReqLogger opts req) .error "HTTP request panicked"
        (reqWithCtx opts req) (finInfo u next start latency)).2 := by
  cases next with
  | mk ops p =>
    cases p
    · exact Bool.noConfusion hp
    · rfl

theorem completionCase_cases (st : Int) :
    completionCase st = (Level.info, "HTTP request finished") ∨
    completionCase st = (Level.warn, "HTTP request failed due to a client error") ∨
    completionCase st = (Level.error, "HTTP request failed") := by
  unfold completionCase
  split_ifs <;> simp

theorem completionCase_level_ge (st : Int) :
    Level.info.toInt ≤ (completionCase st).1.toInt := by
  rcases completionCase_cases st with h | h | h <;> rw [h] <;> decide

theorem isCompletionMsg_completionCase (st : Int) :
    isCompletionMsg (completionCase st).2 = true := by
  rcases completionCase_cases st with h | h | h <;> rw [h] <;> decide

theorem completionEvents_pre (opts : handlerOptions) (l : Logger)
    (req : Request) (res : ResponseInfo) :
    completionEvents
      (logRequest opts l .debug "Received HTTP request" req res).1.toList = [] := by
  unfold logRequest completionEvents
  split_ifs <;> simp [isCompletionMsg]

/-- C1: with the default always-true filter and an info-enabled per-request
logger, every normally-completing request yields exactly one completion log
line, whose severity and message are determined solely by the recorded
status code: status ≤ 399 gives info "HTTP request finished", 400..499
gives warn "HTTP request failed due to a client error", ≥ 500 gives error
"HTTP request failed"; a handler that writes nothing leaves status 0, which
takes the info branch. -/
theorem C1_completion_classification (opts : handlerOptions) (u : Underlying)
    (req : Request) (next : NextHandler) (start latency : Nat)
    (hfilter : opts.perRequestFilterFn = DefaultPerRequestFilterFunc)
    (hpanic : next.panics = false)
    (hlevel : (opts.perRequestLoggerFn opts.logger req).minLevel.toInt ≤ Level.info.toInt) :
    ∃ e, completionEvents (handleRequest opts u req next start latency).logs = [e] ∧
      ((handleRequest opts u req next start latency).recorder.StatusCode ≤ 399 →
        e.level = Level.info ∧ e.msg = "HTTP request finished") ∧
      (400 ≤ (handleRequest opts u req next start latency).recorder.StatusCode ∧
          (handleRequest opts u req next start latency).recorder.StatusCode ≤ 499 →
        e.level = Level.warn ∧ e.msg = "HTTP request failed due to a client error") ∧
      (500 ≤ (handleRequest opts u req next start latency).recorder.StatusCode →
        e.level = Level.error ∧ e.msg = "HTTP request failed") ∧
      (next.ops = [] →
        (handleRequest opts u req next start latency).recorder.StatusCode = 0) := by
  have hlogs := handleRequest_logs_normal opts u req next start latency hpanic
  rw [handleRequest_recorder opts u req next start latency]
  set st := (runOps (newStatusRecorder u) next.ops).StatusCode with hstdef
  have hen : (perReqLogger opts req).enabled (completionCase st).1 = true := by
    unfold Logger.enabled
    rw [perReqLogger_minLevel]
    exact decide_eq_true (le_trans hlevel (completionCase_level_ge st))
  have hfil : opts.perRequestFilterFn (reqWithCtx opts req) (completionCase st).1 = true := by
    rw [hfilter]; rfl
  have hfin := logRequest_some opts (perReqLogger opts req) (completionCase st).1
    (completionCase st).2 (reqWithCtx opts req) (finInfo u next start latency) hfil hen
  refine ⟨{ level := (completionCase st).1, msg := (completionCase st).2
            loggerName := (perReqLogger opts req).name
            fields := (perReqLogger opts req).withFields ++
              opts.requestFormatter (reqWithCtx opts req) (finInfo u next start latency) },
    ?_, ?_, ?_, ?_, ?_⟩
  · rw [hlogs]
    unfold completionEvents
    rw [List.filter_append]
    have h1 := completionEvents_pre opts (perReqLogger opts req) (reqWithCtx opts req) (preInfo start)
    unfold completionEvents at h1
    rw [h1, hfin]
    simp [isCompletionMsg_completionCase st]
  · intro h
    have hcc : completionCase st = (Level.info, "HTTP request finished") := by
      unfold completionCase
      rw [if_pos h]
    simp [hcc]
  · intro h
    have hcc : completionCase st = (Level.warn, "HTTP request failed due to a client error") := by
      unfold completionCase
      rw [if_neg (by omega), if_pos h.2]
    simp [hcc]
  · intro h
    have hcc : completionCase st = (Level.error, "HTTP request failed") := by
      unfold completionCase
      rw [if_neg (by omega), if_neg (by omega)]
    simp [hcc]
  · intro h
    rw [hstdef, h]
    rfl

/-- Witness for C1: a handler that writes status 201 yields exactly one
completion line, at info severity with the "finished" message. -/
theorem C1_completion_classification_witness :
    ∃ e, completionEvents
        (handleRequest testOptions testU testReq ⟨[SROp.writeHeader 201], false⟩ 0 0).logs = [e] ∧
      e.level = Level.info ∧ e.msg = "HTTP request finished" := by
  obtain ⟨e, h1, h2, -, -, -⟩ := C1_completion_classification testOptions testU testReq
    ⟨[SROp.writeHeader 201], false⟩ 0 0 rfl rfl (by decide)
  obtain ⟨hl, hm⟩ := h2 (by decide)
  exact ⟨e, h1, hl, hm⟩

/-- C2: when the downstream handler unwinds abnormally, with the default
filter and an error-enabled per-request logger, the middleware emits exactly
one completion log — error severity, the "panicked" message, carrying the
status code and content type the observer captured before the unwind — no
completion log of any other severity, the panic is not recovered, and the
unwind propagates to the caller. -/
theorem C2_panic_logged_once (opts : handlerOptions) (u : Underlying)
    (req : Request) (next : NextHandler) (start latency : Nat)
    (hpanic : next.panics = true)
    (hfilter : opts.perRequestFilterFn = DefaultPerRequestFilterFunc)
    (hlevel : (opts.perRequestLoggerFn opts.logger req).minLevel.toInt ≤ Level.error.toInt) :
    completionEvents (handleRequest opts u req next start latency).logs =
      [{ level := Level.error, msg := "HTTP request panicked"
         loggerName := (perReqLogger opts req).name
         fields := (perReqLogger opts req).withFields ++
           opts.requestFormatter (reqWithCtx opts req) (finInfo u next start latency) }] ∧
    (finInfo u next start latency).StatusCode =
      (handleRequest opts u req next start latency).recorder.StatusCode ∧
    (finInfo u next start latency).ContentType =
      (handleRequest opts u req next start latency).recorder.ContentType ∧
    (handleRequest opts u req next start latency).panicked = true := by
  have hlogs := handleRequest_logs_panic opts u req next start latency hpanic
  have hen : (perReqLogger opts req).enabled Level.error = true := by
    unfold Logger.enabled
    rw [perReqLogger_minLevel]
    exact decide_eq_true hlevel
  have hfil : opts.perRequestFilterFn (reqWithCtx opts req) Level.error = true := by
    rw [hfilter]; rfl
  have hfin := logRequest_some opts (perReqLogger opts req) Level.error
    "HTTP request panicked" (reqWithCtx opts req) (finInfo u next start latency) hfil hen
  refine ⟨?_, ?_, ?_, ?_⟩
  · rw [hlogs]
    unfold completionEvents
    rw [List.filter_append]
    have h1 := completionEvents_pre opts (perReqLogger opts req) (reqWithCtx opts req) (preInfo start)
    unfold completionEvents at h1
    rw [h1, hfin]
    simp [isCompletionMsg]
  · rw [handleRequest_recorder]
    rfl
  · rw [handleRequest_recorder]
    rfl
  · rw [handleRequest_panicked, hpanic]

/-- Witness for C2 at a concrete panicking handler. -/
theorem C2_panic_logged_once_witness :
    completionEvents (handleRequest testOptions testU testReq ⟨[], true⟩ 0 0).logs =
      [{ level := Level.error, msg := "HTTP request panicked"
         loggerName := (perReqLogger testOptions testReq).name
         fields := (perReqLogger testOptions testReq).withFields ++
           testOptions.requestFormatter (reqWithCtx testOptions testReq)
             (finInfo testU ⟨[], true⟩ 0 0) }] ∧
    (handleRequest testOptions testU testReq ⟨[], true⟩ 0 0).panicked = true := by
  have h := C2_panic_logged_once testOptions testU testReq ⟨[], true⟩ 0 0 rfl rfl (by decide)
  exact ⟨h.1, h.2.2.2⟩

/-- C3: per request, the middleware attempts exactly one completion emission
and exactly one pre-handling emission (each attempt evaluates the filter
once with that event's severity); the completion attempt is the "panicked"
guard exactly when the handler unwound abnormally, so the guard path and
the normal-completion path are mutually exclusive and exactly one runs; at
most one completion line and at most one pre-handling line are written. -/
theorem C3_exactly_one_completion (opts : handlerOptions) (u : Underlying)
    (req : Request) (next : NextHandler) (start latency : Nat) :
    ((handleRequest opts u req next start latency).attempts.countP
      (fun a => isCompletionMsg a.2)) = 1 ∧
    ((handleRequest opts u req next start latency).attempts.countP
      (fun a => a.2 = "Received HTTP request")) = 1 ∧
    ((handleRequest opts u req next start latency).attempts.countP
      (fun a => a.2 = "HTTP request panicked")) = (if next.panics then 1 else 0) ∧
    ((handleRequest opts u req next start latency).logs.countP
      (fun e => isCompletionMsg e.msg)) ≤ 1 ∧
    ((handleRequest opts u req next start latency).logs.countP
      (fun e => e.msg = "Received HTTP request")) ≤ 1 := by
  have hatt := handleRequest_attempts opts u req next start latency
  have hpreCompletion : ∀ (res : ResponseInfo),
      (logRequest opts (perReqLogger opts req) .debug "Received HTTP request"
        (reqWithCtx opts req) res).1.toList.countP (fun e => isCompletionMsg e.msg) = 0 := by
    intro res
    rw [List.countP_eq_zero]
    intro e he
    obtain ⟨-, hm, -⟩ := logRequest_events _ _ _ _ _ _ e he
    rw [hm]
    decide
  have hle : ∀ (o : Option LogEvent) (p : LogEvent → Bool), o.toList.countP p ≤ 1 := by
    intro o p
    cases o with
    | none => simp
    | some a =>
      simp only [Option.toList, List.countP_cons, List.countP_nil]
      split <;> simp
  cases hp : next.panics with
  | false =>
    have hlogs := handleRequest_logs_normal opts u req next start latency hp
    have hfinPre :
        (logRequest opts (perReqLogger opts req)
          (completionCase (runOps (newStatusRecorder u) next.ops).StatusCode).1
          (completionCase (runOps (newStatusRecorder u) next.ops).StatusCode).2
          (reqWithCtx opts req) (finInfo u next start latency)).1.toList.countP
          (fun e => e.msg = "Received HTTP request") = 0 := by
      rw [List.countP_eq_zero]
      intro e he
      obtain ⟨-, hm, -⟩ := logRequest_events _ _ _ _ _ _ e he
      rw [hm]
      rcases completionCase_cases (runOps (newStatusRecorder u) next.ops).StatusCode with h | h | h <;>
        simp [h]
    refine ⟨?_, ?_, ?_, ?_, ?_⟩
    · rw [hatt, hp]
      rcases completionCase_cases (runOps (newStatusRecorder u) next.ops).StatusCode with h | h | h <;>
        simp [h, List.countP_cons, isCompletionMsg]
    · rw [hatt, hp]
      rcases completionCase_cases (runOps (newStatusRecorder u) next.ops).StatusCode with h | h | h <;>
        simp [h, List.countP_cons]
    · rw [hatt, hp]
      rcases completionCase_cases (runOps (newStatusRecorder u) next.ops).StatusCode with h | h | h <;>
        simp [h, List.countP_cons]
    · rw [hlogs, List.countP_append, hpreCompletion]
      simpa using hle _ _
    · rw [hlogs, List.countP_append, hfinPre]
      simpa using hle _ _
  | true =>
    have hlogs := handleRequest_logs_panic opts u req next start latency hp
    have hfinPre :
        (logRequest opts (perReqLogger opts req) .error "HTTP request panicked"
          (reqWithCtx opts req) (finInfo u next start latency)).1.toList.countP
          (fun e => e.msg = "Received HTTP request") = 0 := by
      rw [List.countP_eq_zero]
      intro e he
      obtain ⟨-, hm, -⟩ := logRequest_events _ _ _ _ _ _ e he
      rw [hm]
      decide
    refine ⟨?_, ?_, ?_, ?_, ?_⟩
    · rw [hatt, hp]
      simp [List.countP_cons, isCompletionMsg]
    · rw [hatt, hp]
      simp [List.countP_cons]
    · rw [hatt, hp]
      simp [List.countP_cons]
    · rw [hlogs, List.countP_append, hpreCompletion]
      simpa using hle _ _
    · rw [hlogs, List.countP_append, hfinPre]
      simpa using hle _ _

/-- C6: the filter predicate gates each candidate emission independently —
a rejected (request, severity) pair suppresses exactly that emission; the
emission attempts, the recorder state (so the response and the status used
for classification), and the propagation of a panic are the same under any
filter; every emitted line passed the filter at its own severity; and the
default filter accepts every (request, level) pair. -/
theorem C6_filter_policy (opts : handlerOptions) (u : Underlying) (req req2 : Request)
    (next : NextHandler) (start latency : Nat) (l : Logger) (lvl : Level)
    (msg : String) (res : ResponseInfo) (f : Request → Level → Bool)
    (hrej : opts.perRequestFilterFn req2 lvl = false) :
    (logRequest opts l lvl msg req2 res).1 = none ∧
    (∀ r v, DefaultPerRequestFilterFunc r v = true) ∧
    (handleRequest opts u req next start latency).recorder =
      (handleRequest { opts with perRequestFilterFn := f } u req next start latency).recorder ∧
    (handleRequest opts u req next start latency).panicked =
      (handleRequest { opts with perRequestFilterFn := f } u req next start latency).panicked ∧
    (handleRequest opts u req next start latency).attempts =
      (handleRequest { opts with perRequestFilterFn := f } u req next start latency).attempts ∧
    (∀ e ∈ (handleRequest opts u req next start latency).logs,
      opts.perRequestFilterFn (reqWithCtx opts req) e.level = true) := by
  refine ⟨?_, fun r v => rfl, ?_, ?_, ?_, ?_⟩
  · simp [logRequest, hrej]
  · rw [handleRequest_recorder, handleRequest_recorder]
  · rw [handleRequest_panicked, handleRequest_panicked]
  · rw [handleRequest_attempts, handleRequest_attempts]
  · cases hp : next.panics with
    | false =>
      rw [handleRequest_logs_normal opts u req next start latency hp]
      intro e he
      rcases List.mem_append.mp he with h | h
      · exact logRequest_mem_filter _ _ _ _ _ _ e h
      · exact logRequest_mem_filter _ _ _ _ _ _ e h
    | true =>
      rw [handleRequest_logs_panic opts u req next start latency hp]
      intro e he
      rcases List.mem_append.mp he with h | h
      · exact logRequest_mem_filter _ _ _ _ _ _ e h
      · exact logRequest_mem_filter _ _ _ _ _ _ e h

/-- Options whose filter rejects everything (used as a concrete input). -/
def rejectAllOptions : handlerOptions :=
  { testOptions with perRequestFilterFn := fun _ _ => false }

/-- Witness for C6: under an always-false filter the info emission is
suppressed, while the recorder (hence the response) is exactly the one
obtained under the default always-true filter. -/
theorem C6_filter_policy_witness :
    (logRequest rejectAllOptions testLogger Level.info "HTTP request finished"
      testReq (preInfo 0)).1 = none ∧
    (handleRequest rejectAllOptions testU testReq ⟨[SROp.writeHeader 500], false⟩ 0 0).recorder =
      (handleRequest { rejectAllOptions with perRequestFilterFn := DefaultPerRequestFilterFunc }
        testU testReq ⟨[SROp.writeHeader 500], false⟩ 0 0).recorder ∧
    (handleRequest rejectAllOptions testU testReq ⟨[SROp.writeHeader 500], false⟩ 0 0).logs = [] := by
  have h := C6_filter_policy rejectAllOptions testU testReq testReq
    ⟨[SROp.writeHeader 500], false⟩ 0 0 testLogger Level.info "HTTP request finished"
    (preInfo 0) DefaultPerRequestFilterFunc rfl
  exact ⟨h.1, h.2.2.1, rfl⟩

/-- C7: trace fields are attached exactly when the span context is valid —
then the trace formatter is invoked once and its fields sit identically
(between the per-request logger's fields and the per-event request fields)
on every log line of the request; with an invalid span context the trace
formatter is never invoked and no line carries trace fields. -/
theorem C7_trace_fields (opts : handlerOptions) (u : Underlying) (req : Request)
    (next : NextHandler) (start latency : Nat) :
    (req.spanCtx.IsValid = true →
      (handleRequest opts u req next start latency).traceFormatterCalls = 1 ∧
      (handleRequest opts u req next start latency).injected.withFields =
        (opts.perRequestLoggerFn opts.logger req).withFields ++
          opts.traceFormatter req req.spanCtx ∧
      (∀ e ∈ (handleRequest opts u req next start latency).logs, ∃ fs,
        e.fields = (opts.perRequestLoggerFn opts.logger req).withFields ++
          opts.traceFormatter req req.spanCtx ++ fs)) ∧
    (req.spanCtx.IsValid = false →
      (handleRequest opts u req next start latency).traceFormatterCalls = 0 ∧
      (handleRequest opts u req next start latency).injected.withFields =
        (opts.perRequestLoggerFn opts.logger req).withFields ∧
      (∀ e ∈ (handleRequest opts u req next start latency).logs, ∃ fs,
        e.fields = (opts.perRequestLoggerFn opts.logger req).withFields ++ fs)) := by
  have hfields : ∀ e ∈ (handleRequest opts u req next start latency).logs, ∃ fs,
      e.fields = (perReqLogger opts req).withFields ++ fs := by
    cases hp : next.panics with
    | false =>
      rw [handleRequest_logs_normal opts u req next start latency hp]
      intro e he
      rcases List.mem_append.mp he with h | h
      · obtain ⟨-, -, hf⟩ := logRequest_events _ _ _ _ _ _ e h
        exact ⟨_, hf⟩
      · obtain ⟨-, -, hf⟩ := logRequest_events _ _ _ _ _ _ e h
        exact ⟨_, hf⟩
    | true =>
      rw [handleRequest_logs_panic opts u req next start latency hp]
      intro e he
      rcases List.mem_append.mp he with h | h
      · obtain ⟨-, -, hf⟩ := logRequest_events _ _ _ _ _ _ e h
        exact ⟨_, hf⟩
      · obtain ⟨-, -, hf⟩ := logRequest_events _ _ _ _ _ _ e h
        exact ⟨_, hf⟩
  constructor
  · intro hv
    refine ⟨?_, ?_, ?_⟩
    · rw [handleRequest_traceCalls, if_pos hv]
    · rw [handleRequest_injected, perReqLogger_withFields_valid opts req hv]
    · intro e he
      obtain ⟨fs, hf⟩ := hfields e he
      rw [perReqLogger_withFields_valid opts req hv] at hf
      exact ⟨fs, hf⟩
  · intro hv
    refine ⟨?_, ?_, ?_⟩
    · rw [handleRequest_traceCalls, if_neg]
      rw [hv]
      exact Bool.false_ne_true
    · rw [handleRequest_injected, perReqLogger_withFields_invalid opts req hv]
    · intro e he
      obtain ⟨fs, hf⟩ := hfields e he
      rw [perReqLogger_withFields_invalid opts req hv] at hf
      exact ⟨fs, hf⟩

/-- Witness for C7: with a valid span context the trace formatter runs
once; with an invalid one it never runs. -/
theorem C7_trace_fields_witness :
    (handleRequest testOptions testU testReqTraced ⟨[], false⟩ 0 0).traceFormatterCalls = 1 ∧
    (handleRequest testOptions testU testReq ⟨[], false⟩ 0 0).traceFormatterCalls = 0 := by
  have h1 := (C7_trace_fields testOptions testU testReqTraced ⟨[], false⟩ 0 0).1 (by decide)
  have h2 := (C7_trace_fields testOptions testU testReq ⟨[], false⟩ 0 0).2 (by decide)
  exact ⟨h1.1, h2.1⟩

/-- C8: logger retrieval is total — on a context with no injected logger it
returns the global logger and makes exactly one debug diagnostic call; on a
context produced by the middleware's injection it returns the injected
per-request logger with no diagnostic. -/
theorem C8_from_context (glob l : Logger) (ctx : Context) (opts : handlerOptions)
    (u : Underlying) (req : Request) (next : NextHandler) (start latency : Nat)
    (hmiss : asLogger (contextValue ctx loggerContextKey) = none) :
    FromContext glob ctx = (glob, [(Level.debug, fromContextDiag)]) ∧
    (FromContext glob ctx).2.length = 1 ∧
    FromContext glob (injectLoggerInContext ctx l) = (l, []) ∧
    FromContext glob (handleRequest opts u req next start latency).ctx =
      ((handleRequest opts u req next start latency).injected, []) := by
  have hinj : ∀ (c : Context) (lg : Logger),
      FromContext glob (injectLoggerInContext c lg) = (lg, []) := by
    intro c lg
    unfold FromContext injectLoggerInContext contextWithValue contextValue
    simp [List.find?, asLogger]
  have h1 : FromContext glob ctx = (glob, [(Level.debug, fromContextDiag)]) := by
    unfold FromContext
    rw [hmiss]
  refine ⟨h1, by rw [h1]; rfl, hinj ctx l, ?_⟩
  rw [handleRequest_ctx, handleRequest_injected]
  exact hinj req.ctx (perReqLogger opts req)

/-- Witness for C8: the empty context misses (one diagnostic), an injected
context hits (no diagnostic). -/
theorem C8_from_context_witness :
    FromContext testLogger [] = (testLogger, [(Level.debug, fromContextDiag)]) ∧
    FromContext testLogger (injectLoggerInContext [] testLogger) = (testLogger, []) := by
  have h := C8_from_context testLogger testLogger [] testOptions testU testReq ⟨[], false⟩ 0 0 rfl
  exact ⟨h.1, h.2.2.1⟩

/-- C10: the request formatter is invoked exactly when an emission is
written: a `logRequest` call makes one formatter call if it emits and none
if the filter rejects the pair or the logger's level check fails (emission
happens exactly when the filter accepts and the level is enabled), and over
a whole request the number of formatter invocations equals the number of
emitted log lines. -/
theorem C10_formatter_only_when_emitted (opts : handlerOptions) (l : Logger)
    (lvl : Level) (msg : String) (req : Request) (res : ResponseInfo)
    (u : Underlying) (next : NextHandler) (start latency : Nat) :
    (logRequest opts l lvl msg req res).2 =
      (if (logRequest opts l lvl msg req res).1.isSome then 1 else 0) ∧
    (logRequest opts l lvl msg req res).1.isSome =
      (opts.perRequestFilterFn req lvl && l.enabled lvl) ∧
    (handleRequest opts u req next start latency).requestFormatterCalls =
      (handleRequest opts u req next start latency).logs.length := by
  refine ⟨?_, ?_, ?_⟩
  · cases h1 : opts.perRequestFilterFn req lvl <;> cases h2 : l.enabled lvl <;>
      simp [logRequest, h1, h2]
  · cases h1 : opts.perRequestFilterFn req lvl <;> cases h2 : l.enabled lvl <;>
      simp [logRequest, h1, h2]
  · cases hp : next.panics with
    | false =>
      rw [handleRequest_fmtCalls_normal opts u req next start latency hp,
        handleRequest_logs_normal opts u req next start latency hp,
        List.length_append, logRequest_calls_eq_len, logRequest_calls_eq_len]
    | true =>
      rw [handleRequest_fmtCalls_panic opts u req next start latency hp,
        handleRequest_logs_panic opts u req next start latency hp,
        List.length_append, logRequest_calls_eq_len, logRequest_calls_eq_len]

end ZapHttp
